import Mathlib

/-!
Verification of the task-distribution core of `pytaskmanager`
(`src/pytaskmanager/server/resource/task.py`) against its specification.

The module under study exposes four operations over a task store:
`Task.get` (single task or full collection), `Task.post` (create a task and
fan out one `TaskResult` per node of the target collaboration), `Task.delete`
and `TaskResult.get`.  The development below embeds the JSON payloads the
handlers receive, the database state they manipulate, and the handlers
themselves, and proves or refutes the specified properties.
-/

namespace PTM

/-! ## JSON values

`request.get_json()` hands the handler a Python value decoded from JSON:
`None`, booleans, numbers, strings, lists and string-keyed dicts.  Numbers
are modelled as integers (floating point is out of scope).  String contents
are carried as `List Char`. -/

inductive JValue where
  | null : JValue
  | bool (b : Bool) : JValue
  | int (n : Int) : JValue
  | str (s : List Char) : JValue
  | arr (xs : List JValue) : JValue
  | obj (fs : List (String × JValue)) : JValue

/-- Python truthiness (`if not x`) of a decoded JSON value: `None`, `False`,
`0`, `""`, `[]` and `\x7b\x7d` are falsy, everything else truthy. -/
def pyTruthy : JValue → Bool
  | .null => false
  | .bool b => b
  | .int n => n != 0
  | .str s => !s.isEmpty
  | .arr xs => !xs.isEmpty
  | .obj fs => !fs.isEmpty

/-- Truthiness of `data.get(key)`: an absent key yields `None`, which is falsy. -/
def pyTruthyOpt : Option JValue → Bool
  | none => false
  | some v => pyTruthy v

/-! ## Decimal printing of integers (model of Python `str`/`json.dumps` on ints) -/

/-- The ten decimal digit characters. -/
def digitToChar : Nat → Char
  | 0 => '0'
  | 1 => '1'
  | 2 => '2'
  | 3 => '3'
  | 4 => '4'
  | 5 => '5'
  | 6 => '6'
  | 7 => '7'
  | 8 => '8'
  | _ => '9'

/-- Numeric value of a decimal digit character. -/
def charVal (c : Char) : Nat := c.toNat - 48

/-- Recognizer for decimal digit characters. -/
def isDigitChar (c : Char) : Bool := 48 ≤ c.toNat && c.toNat ≤ 57

/-- Little-endian digit characters of `n`, with explicit fuel so that the
definition is structural and reduces inside the kernel. -/
def natToRev : Nat → Nat → List Char
  | 0, _ => []
  | fuel + 1, n => if n = 0 then [] else digitToChar (n % 10) :: natToRev fuel (n / 10)

/-- Decimal digit characters of a natural number, most significant first. -/
def printNat (n : Nat) : List Char :=
  if n = 0 then ['0'] else (natToRev (n + 1) n).reverse

/-- Decimal rendering of an integer, with a leading minus sign when negative
(as Python prints ints). -/
def printInt (i : Int) : List Char :=
  if i < 0 then '-' :: printNat i.natAbs else printNat i.natAbs

/-! ## JSON string escaping (model of `json.dumps` on strings) -/

/-- The sixteen lowercase hexadecimal digit characters. -/
def hexDigitChar : Nat → Char
  | 0 => '0'
  | 1 => '1'
  | 2 => '2'
  | 3 => '3'
  | 4 => '4'
  | 5 => '5'
  | 6 => '6'
  | 7 => '7'
  | 8 => '8'
  | 9 => '9'
  | 10 => 'a'
  | 11 => 'b'
  | 12 => 'c'
  | 13 => 'd'
  | 14 => 'e'
  | _ => 'f'

/-- Numeric value of a lowercase hexadecimal digit character. -/
def hexVal (c : Char) : Nat :=
  if c.toNat ≤ 57 then c.toNat - 48 else c.toNat - 87

/-- Recognizer for lowercase hexadecimal digit characters. -/
def isHexChar (c : Char) : Bool :=
  (48 ≤ c.toNat && c.toNat ≤ 57) || (97 ≤ c.toNat && c.toNat ≤ 102)

/-- JSON escape of one character: quote and backslash get a backslash escape,
control characters an `\u00XX` escape, anything else stands for itself. -/
def escChar (c : Char) : List Char :=
  if c = '"' then ['\\', '"']
  else if c = '\\' then ['\\', '\\']
  else if c.toNat < 32 then
    ['\\', 'u', '0', '0', hexDigitChar (c.toNat / 16), hexDigitChar (c.toNat % 16)]
  else [c]

/-- JSON escape of a character sequence. -/
def escapeChars : List Char → List Char
  | [] => []
  | c :: cs => escChar c ++ escapeChars cs

/-! ## JSON serialization (model of `json.dumps`, compact separators) -/

mutual

/-- Canonical JSON text of a value (model of `json.dumps` restricted to
JSON-decoded values, with compact separators). -/
def printVal : JValue → List Char
  | .null => "null".data
  | .bool true => "true".data
  | .bool false => "false".data
  | .int i => printInt i
  | .str s => '"' :: escapeChars s ++ ['"']
  | .arr xs => '[' :: printItems xs ++ [']']
  | .obj fs => '{' :: printFields fs ++ ['}']

/-- Comma-separated serialization of array elements. -/
def printItems : List JValue → List Char
  | [] => []
  | [v] => printVal v
  | v :: vs => printVal v ++ ',' :: printItems vs

/-- Comma-separated serialization of object fields (`"key":value`). -/
def printFields : List (String × JValue) → List Char
  | [] => []
  | [(k, v)] => '"' :: escapeChars k.data ++ '"' :: ':' :: printVal v
  | (k, v) :: fs =>
    '"' :: escapeChars k.data ++ '"' :: ':' :: printVal v ++ ',' :: printFields fs

end

/-- `json.dumps` as a `String`-producing function. -/
def dumps (v : JValue) : String := String.mk (printVal v)

/-! ## Python `str()` of decoded JSON values

Error messages are built with `"...".format(value)`, which renders the value
with `str()`.  Containers render their elements with `repr()`; the string
`repr` is modelled as plain single-quote wrapping. -/

mutual

/-- Model of Python `repr()` on a JSON-decoded value. -/
def pyRepr : JValue → String
  | .null => "None"
  | .bool true => "True"
  | .bool false => "False"
  | .int n => String.mk (printInt n)
  | .str s => String.mk ('\x27' :: s ++ ['\x27'])
  | .arr xs => "[" ++ pyReprItems xs ++ "]"
  | .obj fs => "\x7b" ++ pyReprFields fs ++ "\x7d"

/-- Comma-separated `repr` of list elements. -/
def pyReprItems : List JValue → String
  | [] => ""
  | [v] => pyRepr v
  | v :: vs => pyRepr v ++ ", " ++ pyReprItems vs

/-- Comma-separated `repr` of dict items. -/
def pyReprFields : List (String × JValue) → String
  | [] => ""
  | [(k, v)] => String.mk ('\x27' :: k.data ++ ['\x27']) ++ ": " ++ pyRepr v
  | (k, v) :: fs =>
    String.mk ('\x27' :: k.data ++ ['\x27']) ++ ": " ++ pyRepr v ++ ", " ++ pyReprFields fs

end

/-- Model of Python `str()` on a JSON-decoded value: like `repr()` except that
a top-level string renders without quotes. -/
def pyStr : JValue → String
  | .str s => String.mk s
  | v => pyRepr v

/-- Python `str()` of a natural number id. -/
def natStr (n : Nat) : String := String.mk (printNat n)

/-- `data.get(key, default)` on a decoded JSON object. -/
def jGetD (data : List (String × JValue)) (key : String) (dflt : JValue) : JValue :=
  (data.lookup key).getD dflt

/-! ## Database state

Entities as stored by the task store.  The `db` module itself is not part of
the source under study; the per-entity operations used by the handlers
(`get`, `save`, `delete`) are modelled from the spec where indicated. -/

structure Node where
  id : Nat
  name : String
  deriving DecidableEq

structure Collaboration where
  id : Nat
  name : String
  nodes : List Node
  deriving DecidableEq

/-- A persisted Task row.  The descriptive fields hold whatever decoded JSON
value the creation payload supplied (the handler assigns them unconverted);
`input` is always a string by the time it is stored. -/
structure Task where
  id : Nat
  collaboration_id : Nat
  name : JValue
  description : JValue
  image : JValue
  input : String
  status : String

structure TaskResult where
  id : Nat
  task_id : Nat
  node_id : Nat
  deriving DecidableEq

structure DB where
  collaborations : List Collaboration
  tasks : List Task
  results : List TaskResult
  nextTaskId : Nat
  nextResultId : Nat

/-- Modelled from the spec: `db.Task.get` (the `db` module is not under
`src/`), per §4.1 and §4.3 — with an id it yields the task with that id or
nothing; with no id it yields the full collection of tasks. -/
def DB.taskGet (db : DB) (id : Option Nat) : Option (Task ⊕ List Task) :=
  match id with
  | some i => (db.tasks.find? (fun t => t.id == i)).map Sum.inl
  | none => some (Sum.inr db.tasks)

/-- Lookup of a single task by id. -/
def DB.findTask (db : DB) (i : Nat) : Option Task :=
  db.tasks.find? (fun t => t.id == i)

/-- Does a decoded JSON value denote the integer id `i`? -/
def jIsId : JValue → Nat → Bool
  | .int n, i => n == (i : Int)
  | _, _ => false

/-- Modelled from the spec: `db.Collaboration.get` — `resolve(collaboration_id)
-> Collaboration | None` (§6); a non-integer value resolves to nothing. -/
def DB.collaborationGet (db : DB) (v : JValue) : Option Collaboration :=
  db.collaborations.find? (fun c => jIsId v c.id)

/-- The TaskResult rows owned by task `tid` (the ORM relationship
`task.results`). -/
def DB.resultsFor (db : DB) (tid : Nat) : List TaskResult :=
  db.results.filter (fun r => r.task_id == tid)

/-! ## Serialized views and responses -/

/-- Modelled from the spec: the serialized view of a task produced by
`TaskSchema` / `TaskIncludedSchema` (`_schema.py` is not under `src/`) —
the task, embedding its TaskResults iff the include flag is set (§4.3). -/
structure TaskView where
  task : Task
  results : Option (List TaskResult)

/-- Serialize one task under the include-results flag. -/
def dumpTask (db : DB) (includeResults : Bool) (t : Task) : TaskView :=
  ⟨t, if includeResults then some (db.resultsFor t.id) else none⟩

inductive TaskGetResp where
  | notFound (msg : String)
  | single (v : TaskView)
  | collection (vs : List TaskView)

/-- Is the response the NotFound failure? -/
def TaskGetResp.isNotFound : TaskGetResp → Bool
  | .notFound _ => true
  | _ => false

/-- HTTP status of a get-task response. -/
def TaskGetResp.statusCode : TaskGetResp → Nat
  | .notFound _ => 404
  | _ => 200

/-- The message of a failure response (empty for successes). -/
def TaskGetResp.msg : TaskGetResp → String
  | .notFound m => m
  | _ => ""

inductive PostResp where
  | badRequest (msg : String)
  | notFound (msg : String)
  | created (t : Task)

/-- HTTP status of a create-task response (`BAD_REQUEST`, `NOT_FOUND`, `OK`). -/
def PostResp.statusCode : PostResp → Nat
  | .badRequest _ => 400
  | .notFound _ => 404
  | .created _ => 200

/-- Is the response a successful creation? -/
def PostResp.isCreated : PostResp → Bool
  | .created _ => true
  | _ => false

/-- A `socketio.emit` call: event name, task-id payload, room, namespace. -/
structure Emit where
  event : String
  payload : Nat
  room : String
  ns : String
  deriving DecidableEq

/-- Outcome of a create-task request: the response, the final database, the
emitted socket events, and the sequence of committed database states (one
entry per `save()` call, in order — an interruption after the k-th commit
leaves exactly `commits[k]` visible to readers). -/
structure PostOut where
  resp : PostResp
  db : DB
  emits : List Emit
  commits : List DB

inductive DeleteResp where
  | notFound (msg : String)
  | ok (msg : String)

/-- Is the response the NotFound failure? -/
def DeleteResp.isNotFound : DeleteResp → Bool
  | .notFound _ => true
  | _ => false

/-- The message carried by a delete response. -/
def DeleteResp.msg : DeleteResp → String
  | .notFound m => m
  | .ok m => m

structure DeleteOut where
  resp : DeleteResp
  db : DB

inductive ResultsResp where
  | notFound (msg : String)
  | ok (results : List TaskResult)
  deriving DecidableEq

/-- Is the response the NotFound failure? -/
def ResultsResp.isNotFound : ResultsResp → Bool
  | .notFound _ => true
  | _ => false
/-! ## The handlers (the code under verification, task.py lines 50-146) -/

/-- Lines 87-91: a non-string `input` payload is serialized with
`json.dumps`; a string is stored verbatim. -/
def storedInput : JValue → String
  | .str s => String.mk s
  | v => dumps v

/-- `Task.get` (lines 59-65): fetch one task, or the full collection when no
id is supplied.  The Python falsiness check `if not task` treats both a
missing id and an empty collection as NotFound.  The message on line 62 is
the literal source string — the source performs no `.format` call there, so
the placeholder stays unfilled.  The serialization shape (single object
versus list) follows the shape of the store lookup. -/
def TaskResource.get (db : DB) (id : Option Nat) (includeResults : Bool) : TaskGetResp :=
  match db.taskGet id with
  | none => .notFound "task id=\x7b\x7d is not found"
  | some (Sum.inl t) => .single (dumpTask db includeResults t)
  | some (Sum.inr ts) =>
    if ts.isEmpty then .notFound "task id=\x7b\x7d is not found"
    else .collection (ts.map (dumpTask db includeResults))

/-- The fan-out loop (lines 103-106): one TaskResult per node of the
collaboration, in list order, with consecutively assigned fresh ids. -/
def mkResults (startId tid : Nat) : List Node → List TaskResult
  | [] => []
  | n :: ns => ⟨startId, tid, n.id⟩ :: mkResults (startId + 1) tid ns

/-- `Task.post` (lines 69-119): validate the collaboration reference, build
the Task, save it, build one TaskResult per collaboration node, save again,
then emit the socket event.

Each `save()` is modelled from the spec's store contract (§4.1, the `db`
module is not under `src/`): one atomic commit of the rows pending at that
point, recorded as one entry of `commits` (the database states a reader can
observe if execution stops after that commit).  The first save (line 93)
commits the Task alone and assigns its id; the second (line 108) commits the
TaskResult batch. -/
def TaskResource.post (db : DB) (data : List (String × JValue)) : PostOut :=
  match data.lookup "collaboration_id" with
  | none => ⟨.badRequest "JSON should contain \x27collaboration_id\x27", db, [], []⟩
  | some cid =>
    if !pyTruthy cid then
      ⟨.badRequest "JSON should contain \x27collaboration_id\x27", db, [], []⟩
    else
      match db.collaborationGet cid with
      | none => ⟨.notFound ("collaboration id=" ++ pyStr cid ++ " not found"), db, [], []⟩
      | some collaboration =>
        let t : Task :=
          { id := db.nextTaskId
            collaboration_id := collaboration.id
            name := jGetD data "name" (.str [])
            description := jGetD data "description" (.str [])
            image := jGetD data "image" (.str [])
            input := storedInput (jGetD data "input" (.str []))
            status := "open" }
        let db1 : DB := { db with tasks := db.tasks ++ [t], nextTaskId := db.nextTaskId + 1 }
        let rs := mkResults db1.nextResultId t.id collaboration.nodes
        let db2 : DB :=
          { db1 with results := db1.results ++ rs, nextResultId := db1.nextResultId + rs.length }
        ⟨.created t, db2,
         [⟨"new_task", t.id, "collaboration_" ++ natStr t.collaboration_id, "/tasks"⟩],
         [db1, db2]⟩

/-- `Task.delete` (lines 123-132).  `task.delete()` itself is modelled from
the spec (the `db` module is not under `src/`): per §4.5 it removes the Task
and, transactionally, all its TaskResults.  (A source comment on line 125
leaves the fate of the results as an open TODO; the spec fixes it as a
cascade.) -/
def TaskResource.delete (db : DB) (id : Nat) : DeleteOut :=
  match db.findTask id with
  | none => ⟨.notFound ("task id=" ++ natStr id ++ " not found"), db⟩
  | some _ =>
    ⟨.ok ("task id=" ++ natStr id ++ " successfully deleted"),
     { db with tasks := db.tasks.filter (fun t => t.id != id),
               results := db.results.filter (fun r => r.task_id != id) }⟩

/-- `TaskResult.get` (lines 140-146): NotFound when the task does not exist,
otherwise the task's results (`task.results`). -/
def TaskResultResource.get (db : DB) (id : Nat) : ResultsResp :=
  match db.findTask id with
  | none => .notFound ("task id=" ++ natStr id ++ " not found")
  | some task => .ok (db.resultsFor task.id)

/-! ## Concrete fixtures used by witnesses and counterexamples -/

/-- A database with one collaboration (id 1) containing one node, no tasks. -/
def dbOne : DB :=
  { collaborations := [⟨1, "c", [⟨1, "n1"⟩]⟩], tasks := [], results := [],
    nextTaskId := 1, nextResultId := 1 }

/-- A database with one collaboration (id 1) whose node set is empty. -/
def dbZero : DB :=
  { collaborations := [⟨1, "c", []⟩], tasks := [], results := [],
    nextTaskId := 1, nextResultId := 1 }

/-- A database holding one task (id 1) with no results. -/
def dbOneTask : DB :=
  { collaborations := [⟨1, "c", [⟨1, "n1"⟩]⟩],
    tasks := [⟨1, 1, .str [], .str [], .str [], "", "open"⟩],
    results := [], nextTaskId := 2, nextResultId := 1 }

/-- A database holding one task (id 1) owning one result row. -/
def dbTaskRes : DB :=
  { collaborations := [⟨1, "c", [⟨1, "n1"⟩]⟩],
    tasks := [⟨1, 1, .str [], .str [], .str [], "", "open"⟩],
    results := [⟨1, 1, 1⟩], nextTaskId := 2, nextResultId := 2 }

/-- The minimal valid creation payload, targeting collaboration 1. -/
def payloadOne : List (String × JValue) := [("collaboration_id", .int 1)]

/-! ## Shared helper lemmas -/

/-! ## C5 -/

/-- C5: `createTask` fails with the MissingField BAD_REQUEST error when
`collaboration_id` is absent from the payload, and with the
CollaborationNotFound NOT_FOUND error when the id does not resolve; both
checks happen before any mutation: the database comes back unchanged, no
commit is performed, and nothing is emitted. -/
theorem createTask_validation_before_mutation (db : DB)
    (data : List (String × JValue)) :
    (data.lookup "collaboration_id" = none →
      TaskResource.post db data =
        ⟨.badRequest "JSON should contain \x27collaboration_id\x27", db, [], []⟩) ∧
    (∀ cid, data.lookup "collaboration_id" = some cid → pyTruthy cid = true →
      db.collaborationGet cid = none →
      TaskResource.post db data =
        ⟨.notFound ("collaboration id=" ++ pyStr cid ++ " not found"), db, [], []⟩) := by
  constructor
  · intro h
    simp [TaskResource.post, h]
  · intro cid h ht hc
    simp [TaskResource.post, h, ht, hc]

/-- Witness for C5: the empty payload misses the field; collaboration 2 does
not exist in `dbOne`. -/
theorem createTask_validation_before_mutation_witness :
    TaskResource.post dbOne [] =
      ⟨.badRequest "JSON should contain \x27collaboration_id\x27", dbOne, [], []⟩ ∧
    TaskResource.post dbOne [("collaboration_id", .int 2)] =
      ⟨.notFound "collaboration id=2 not found", dbOne, [], []⟩ :=
  ⟨(createTask_validation_before_mutation dbOne []).1 rfl,
   (createTask_validation_before_mutation dbOne [("collaboration_id", .int 2)]).2
     (.int 2) rfl rfl rfl⟩

/-! ## C10 -/

/-- C10: a present-but-falsy `collaboration_id` (0, "", null, false, …) is
treated exactly like an absent one: the request fails with the MissingField
BAD_REQUEST error, the database comes back unchanged with no commits and no
events, the outcome coincides with that of a payload lacking the key, and
the collaboration directory is never consulted — replacing the
`collaborations` table arbitrarily leaves the outcome unchanged. -/
theorem createTask_falsy_collaboration_id (db : DB)
    (data data2 : List (String × JValue)) (v : JValue)
    (hv : data.lookup "collaboration_id" = some v) (hfalsy : pyTruthy v = false)
    (habsent : data2.lookup "collaboration_id" = none) :
    TaskResource.post db data =
      ⟨.badRequest "JSON should contain \x27collaboration_id\x27", db, [], []⟩ ∧
    TaskResource.post db data = TaskResource.post db data2 ∧
    (∀ cs, TaskResource.post { db with collaborations := cs } data =
      ⟨.badRequest "JSON should contain \x27collaboration_id\x27",
       { db with collaborations := cs }, [], []⟩) := by
  refine ⟨?_, ?_, fun cs => ?_⟩ <;>
    simp [TaskResource.post, hv, hfalsy, habsent]

/-- Witness for C10: the falsy value 0, next to an absent key, on `dbOne`. -/
theorem createTask_falsy_collaboration_id_witness :
    TaskResource.post dbOne [("collaboration_id", .int 0)] =
      ⟨.badRequest "JSON should contain \x27collaboration_id\x27", dbOne, [], []⟩ ∧
    TaskResource.post dbOne [("collaboration_id", .int 0)] =
      TaskResource.post dbOne [] :=
  ⟨(createTask_falsy_collaboration_id dbOne [("collaboration_id", .int 0)] []
      (.int 0) rfl rfl rfl).1,
   (createTask_falsy_collaboration_id dbOne [("collaboration_id", .int 0)] []
      (.int 0) rfl rfl rfl).2.1⟩

/-! ## C9 -/

/-- C9 (code bug): the NotFound failure of `getTask` does not name the
offending id.  For the missing id 7 the handler answers with the literal
message "task id=\x7b\x7d is not found": the placeholder is left unformatted
(source line 62 lacks the `.format(id)` call every other message has), and
the digit 7 occurs nowhere in the message. -/
theorem getTask_notFound_message_unformatted :
    (TaskResource.get dbOne (some 7) false).isNotFound = true ∧
    (TaskResource.get dbOne (some 7) false).msg = "task id=\x7b\x7d is not found" ∧
    (TaskResource.get dbOne (some 7) false).msg.data.contains '7' = false :=
  ⟨rfl, rfl, by decide⟩

/-! ## C8 -/

/-- C8: `getResults` fails with NotFound exactly when no task with the given
id exists (with the formatted message naming the id), and otherwise returns
the task's result collection, which may be empty.  The handler is embedded
as a pure function of the database — it performs no write. -/
theorem getResults_contract (db : DB) (id : Nat) :
    ((TaskResultResource.get db id).isNotFound = true ↔ db.findTask id = none) ∧
    (db.findTask id = none →
      TaskResultResource.get db id =
        .notFound ("task id=" ++ natStr id ++ " not found")) ∧
    (∀ t, db.findTask id = some t →
      TaskResultResource.get db id = .ok (db.resultsFor id)) := by
  refine ⟨?_, ?_, ?_⟩
  · cases h : db.findTask id <;>
      simp [TaskResultResource.get, h, ResultsResp.isNotFound]
  · intro h
    simp [TaskResultResource.get, h]
  · intro t ht
    have hid : t.id = id := by
      have := List.find?_some ht
      simpa using this
    simp [TaskResultResource.get, ht, hid]

/-- Witness for C8: in `dbOneTask`, task 1 exists with zero results and task
2 does not exist. -/
theorem getResults_contract_witness :
    TaskResultResource.get dbOneTask 1 = .ok [] ∧
    TaskResultResource.get dbOneTask 2 = .notFound "task id=2 not found" :=
  ⟨(getResults_contract dbOneTask 1).2.2 ⟨1, 1, .str [], .str [], .str [], "", "open"⟩ rfl,
   (getResults_contract dbOneTask 2).2.1 rfl⟩

/-! ## C2 -/

/-- C2: for an existing id, `deleteTask` acknowledges the deletion and
removes the Task together with all its TaskResults (the cascade of
`task.delete()` is modelled from spec §4.5, the `db` module being outside
`src/`): afterwards no TaskResult row references the task and `getResults`
fails with NotFound.  For a missing id it fails with NotFound and returns
the database unchanged. -/
theorem deleteTask_contract (db : DB) (id : Nat) :
    (db.findTask id = none →
      TaskResource.delete db id =
        ⟨.notFound ("task id=" ++ natStr id ++ " not found"), db⟩) ∧
    (∀ t, db.findTask id = some t →
      (TaskResource.delete db id).resp =
        .ok ("task id=" ++ natStr id ++ " successfully deleted") ∧
      (TaskResource.delete db id).db.resultsFor id = [] ∧
      (TaskResource.delete db id).db.findTask id = none ∧
      TaskResultResource.get (TaskResource.delete db id).db id =
        .notFound ("task id=" ++ natStr id ++ " not found")) := by
  constructor
  · intro h
    simp [TaskResource.delete, h]
  · intro t ht
    have hd : TaskResource.delete db id =
        ⟨.ok ("task id=" ++ natStr id ++ " successfully deleted"),
         { db with tasks := db.tasks.filter (fun x => x.id != id),
                   results := db.results.filter (fun r => r.task_id != id) }⟩ := by
      simp only [TaskResource.delete, ht]
    have hres : (TaskResource.delete db id).db.resultsFor id = [] := by
      rw [hd]
      simp [DB.resultsFor, List.mem_filter]
    have hfind : (TaskResource.delete db id).db.findTask id = none := by
      rw [hd]
      simp [DB.findTask, List.find?_eq_none, List.mem_filter]
    exact ⟨by rw [hd], hres, hfind, by simp [TaskResultResource.get, hfind]⟩

/-- Witness for C2: in `dbTaskRes` task 1 owns one result; deleting it
erases both, and deleting the absent task 2 changes nothing. -/
theorem deleteTask_contract_witness :
    ((TaskResource.delete dbTaskRes 1).resp =
      .ok "task id=1 successfully deleted" ∧
     (TaskResource.delete dbTaskRes 1).db.resultsFor 1 = [] ∧
     (TaskResource.delete dbTaskRes 1).db.findTask 1 = none ∧
     TaskResultResource.get (TaskResource.delete dbTaskRes 1).db 1 =
       .notFound "task id=1 not found") ∧
    TaskResource.delete dbTaskRes 2 =
      ⟨.notFound "task id=2 not found", dbTaskRes⟩ :=
  ⟨(deleteTask_contract dbTaskRes 1).2 ⟨1, 1, .str [], .str [], .str [], "", "open"⟩ rfl,
   (deleteTask_contract dbTaskRes 2).1 rfl⟩

/-! ## C7 -/

/-- C7 counterexample: with no id supplied and an empty task store, the
handler answers NotFound instead of returning the empty collection — the
Python falsiness check `if not task` fires on the empty list, so NotFound is
not restricted to the id-given-and-absent case. -/
theorem getTask_empty_store_notFound :
    dbOne.tasks = [] ∧ (TaskResource.get dbOne none false).isNotFound = true :=
  ⟨rfl, rfl⟩

/-- C7 (amended): `getTask` with an id fails with NotFound when the id does
not resolve and otherwise returns that single Task, embedding its
TaskResults exactly when the include flag is set; with no id it returns the
full collection under the same flag semantics whenever at least one task
exists, but on an empty store the falsiness check makes it fail with
NotFound as well. -/
theorem getTask_contract (db : DB) (id : Nat) (inc : Bool) :
    (db.findTask id = none →
      TaskResource.get db (some id) inc =
        .notFound "task id=\x7b\x7d is not found") ∧
    (∀ t, db.findTask id = some t →
      TaskResource.get db (some id) inc = .single (dumpTask db inc t)) ∧
    (db.tasks = [] →
      TaskResource.get db none inc = .notFound "task id=\x7b\x7d is not found") ∧
    (db.tasks ≠ [] →
      TaskResource.get db none inc = .collection (db.tasks.map (dumpTask db inc))) ∧
    (∀ t, (dumpTask db true t).results = some (db.resultsFor t.id) ∧
          (dumpTask db false t).results = none) := by
  refine ⟨?_, ?_, ?_, ?_, fun t => ⟨rfl, rfl⟩⟩
  · intro h
    rw [DB.findTask] at h
    simp [TaskResource.get, DB.taskGet, h]
  · intro t ht
    rw [DB.findTask] at ht
    simp [TaskResource.get, DB.taskGet, ht]
  · intro h
    simp [TaskResource.get, DB.taskGet, h]
  · intro h
    cases hts : db.tasks with
    | nil => exact absurd hts h
    | cons a l => simp [TaskResource.get, DB.taskGet, hts]

/-- Witness for C7 (amended) at concrete stores: a missing id, a found id
without embedding, the empty collection, and the collection with embedded
results. -/
theorem getTask_contract_witness :
    TaskResource.get dbOneTask (some 2) false =
      .notFound "task id=\x7b\x7d is not found" ∧
    TaskResource.get dbOneTask (some 1) false =
      .single ⟨⟨1, 1, .str [], .str [], .str [], "", "open"⟩, none⟩ ∧
    TaskResource.get dbOne none false = .notFound "task id=\x7b\x7d is not found" ∧
    TaskResource.get dbOneTask none true =
      .collection [⟨⟨1, 1, .str [], .str [], .str [], "", "open"⟩, some []⟩] := by
  refine ⟨(getTask_contract dbOneTask 2 false).1 rfl, ?_,
          (getTask_contract dbOne 0 false).2.2.1 rfl, ?_⟩
  · exact (getTask_contract dbOneTask 1 false).2.1 _ rfl
  · exact (getTask_contract dbOneTask 0 true).2.2.2.1 (by simp [dbOneTask])

/-! ## Shape of a successful creation -/

/-- The Task record a successful creation builds (lines 82-92). -/
def newTask (db : DB) (data : List (String × JValue)) (collab : Collaboration) : Task :=
  { id := db.nextTaskId
    collaboration_id := collab.id
    name := jGetD data "name" (.str [])
    description := jGetD data "description" (.str [])
    image := jGetD data "image" (.str [])
    input := storedInput (jGetD data "input" (.str []))
    status := "open" }

/-- The committed state after the first `save()` (line 93): the Task alone. -/
def dbAfterTaskSave (db : DB) (data : List (String × JValue))
    (collab : Collaboration) : DB :=
  { db with tasks := db.tasks ++ [newTask db data collab],
            nextTaskId := db.nextTaskId + 1 }

/-- The committed state after the second `save()` (line 108): the Task plus
its TaskResult batch. -/
def dbAfterResultsSave (db : DB) (data : List (String × JValue))
    (collab : Collaboration) : DB :=
  { dbAfterTaskSave db data collab with
    results := db.results ++ mkResults db.nextResultId db.nextTaskId collab.nodes,
    nextResultId :=
      db.nextResultId + (mkResults db.nextResultId db.nextTaskId collab.nodes).length }

/-- A valid creation produces exactly the two commits, the emission and the
response spelled out by the three definitions above. -/
theorem post_success_shape (db : DB) (data : List (String × JValue))
    (cid : JValue) (collab : Collaboration)
    (hv : data.lookup "collaboration_id" = some cid)
    (ht : pyTruthy cid = true) (hc : db.collaborationGet cid = some collab) :
    TaskResource.post db data =
      ⟨.created (newTask db data collab), dbAfterResultsSave db data collab,
       [⟨"new_task", db.nextTaskId, "collaboration_" ++ natStr collab.id, "/tasks"⟩],
       [dbAfterTaskSave db data collab, dbAfterResultsSave db data collab]⟩ := by
  simp [TaskResource.post, hv, ht, hc, newTask, dbAfterTaskSave, dbAfterResultsSave]

/-- Every row of the fan-out batch references the new task. -/
theorem mkResults_filter (startId tid : Nat) (ns : List Node) :
    (mkResults startId tid ns).filter (fun r => r.task_id == tid) =
      mkResults startId tid ns := by
  induction ns generalizing startId with
  | nil => rfl
  | cons n ns ih => simp [mkResults, ih]

/-- The fan-out batch has one row per node. -/
theorem mkResults_length (startId tid : Nat) (ns : List Node) :
    (mkResults startId tid ns).length = ns.length := by
  induction ns generalizing startId with
  | nil => rfl
  | cons n ns ih => simp [mkResults, ih]

/-- The fan-out batch targets exactly the snapshotted nodes, in order. -/
theorem mkResults_map_node (startId tid : Nat) (ns : List Node) :
    (mkResults startId tid ns).map TaskResult.node_id = ns.map Node.id := by
  induction ns generalizing startId with
  | nil => rfl
  | cons n ns ih => simp [mkResults, ih]

/-- The (task_id, node_id) pairs of the fan-out batch. -/
theorem mkResults_map_pair (startId tid : Nat) (ns : List Node) :
    (mkResults startId tid ns).map (fun r => (r.task_id, r.node_id)) =
      ns.map (fun n => (tid, n.id)) := by
  induction ns generalizing startId with
  | nil => rfl
  | cons n ns ih => simp [mkResults, ih]

/-- After the second commit, the new task's result set is exactly the
fan-out batch (provided the task id was fresh: no existing result row
references it). -/
theorem resultsFor_afterSave (db : DB) (data : List (String × JValue))
    (collab : Collaboration)
    (hfresh : db.resultsFor db.nextTaskId = []) :
    (dbAfterResultsSave db data collab).resultsFor db.nextTaskId =
      mkResults db.nextResultId db.nextTaskId collab.nodes := by
  rw [DB.resultsFor] at hfresh ⊢
  simp only [dbAfterResultsSave, dbAfterTaskSave, List.filter_append, hfresh,
    mkResults_filter, List.nil_append]

/-! ## C4 -/

/-- C4 counterexample: the event emitted on a successful creation is named
"new_task", not "new task" as the claim states. -/
theorem createTask_event_name_counterexample :
    (TaskResource.post dbOne payloadOne).emits.length = 1 ∧
    ((TaskResource.post dbOne payloadOne).emits.getD 0 ⟨"", 0, "", ""⟩).event =
      "new_task" ∧
    "new_task" ≠ "new task" :=
  ⟨rfl, rfl, by decide⟩

/-- C4 (amended): on every successful creation the notifier is invoked
exactly once — after both persistence commits — with event type "new_task",
the new task's id as payload and room "collaboration_<collaboration_id>"
(namespace "/tasks"); this also holds when the collaboration has zero nodes,
and a failed creation emits nothing. -/
theorem createTask_notification (db : DB) (data : List (String × JValue)) :
    (∀ cid collab, data.lookup "collaboration_id" = some cid →
      pyTruthy cid = true → db.collaborationGet cid = some collab →
      (TaskResource.post db data).resp.isCreated = true ∧
      (TaskResource.post db data).emits =
        [⟨"new_task", db.nextTaskId, "collaboration_" ++ natStr collab.id, "/tasks"⟩] ∧
      (TaskResource.post db data).commits.length = 2) ∧
    ((TaskResource.post db data).resp.isCreated = false →
      (TaskResource.post db data).emits = []) := by
  constructor
  · intro cid collab hv ht hc
    rw [post_success_shape db data cid collab hv ht hc]
    exact ⟨rfl, rfl, rfl⟩
  · intro h
    cases hl : data.lookup "collaboration_id" with
    | none => simp [TaskResource.post, hl]
    | some cid =>
      cases htr : pyTruthy cid with
      | false => simp [TaskResource.post, hl, htr]
      | true =>
        cases hc : db.collaborationGet cid with
        | none => simp [TaskResource.post, hl, htr, hc]
        | some collab =>
          rw [post_success_shape db data cid collab hl htr hc] at h
          exact absurd h (by simp [PostResp.isCreated])

/-- Witness for C4 (amended): a creation into the zero-node collaboration of
`dbZero` still notifies, exactly once; the failed creation on an empty
payload emits nothing. -/
theorem createTask_notification_witness :
    (TaskResource.post dbZero payloadOne).resp.isCreated = true ∧
    (TaskResource.post dbZero payloadOne).emits =
      [⟨"new_task", 1, "collaboration_1", "/tasks"⟩] ∧
    (TaskResource.post dbZero payloadOne).commits.length = 2 ∧
    (TaskResource.post dbOne []).emits = [] :=
  ⟨((createTask_notification dbZero payloadOne).1 (.int 1) ⟨1, "c", []⟩ rfl rfl rfl).1,
   ((createTask_notification dbZero payloadOne).1 (.int 1) ⟨1, "c", []⟩ rfl rfl rfl).2.1,
   ((createTask_notification dbZero payloadOne).1 (.int 1) ⟨1, "c", []⟩ rfl rfl rfl).2.2,
   (createTask_notification dbOne []).2 rfl⟩

/-! ## C1 -/

/-- C1 counterexample: creating a task in `dbOne`, whose collaboration has
one node, commits twice; after the first commit the Task is already visible
with zero of its one TaskResult, and `getTask` for its id returns the task
rather than NotFound — the Task and its TaskResults are not persisted as a
single atomic unit. -/
theorem createTask_not_atomic :
    (TaskResource.post dbOne payloadOne).commits.length = 2 ∧
    (((TaskResource.post dbOne payloadOne).commits.getD 0 dbOne).findTask 1).isSome =
      true ∧
    ((TaskResource.post dbOne payloadOne).commits.getD 0 dbOne).resultsFor 1 = [] ∧
    (dbOne.collaborations.getD 0 ⟨0, "", []⟩).nodes.length = 1 ∧
    (TaskResource.get ((TaskResource.post dbOne payloadOne).commits.getD 0 dbOne)
        (some 1) true).isNotFound = false :=
  ⟨rfl, rfl, rfl, rfl, rfl⟩

/-- C1 (amended): a valid creation persists in exactly two commits rather
than one atomic unit.  Before the first commit no row for the new task is
visible; the first commit makes the Task visible with zero TaskResults (so
an interruption between the commits leaves a reader seeing the Task with
fewer results than collaboration nodes, and `getTask` returns it instead of
NotFound); the second commit makes the Task and all n TaskResults visible
and is the final state.  Failed validations commit nothing and leave the
database unchanged. -/
theorem createTask_commit_sequence (db : DB) (data : List (String × JValue))
    (cid : JValue) (collab : Collaboration)
    (hv : data.lookup "collaboration_id" = some cid)
    (ht : pyTruthy cid = true) (hc : db.collaborationGet cid = some collab)
    (hfreshT : db.findTask db.nextTaskId = none)
    (hfreshR : db.resultsFor db.nextTaskId = []) :
    (TaskResource.post db data).commits =
      [dbAfterTaskSave db data collab, dbAfterResultsSave db data collab] ∧
    ((dbAfterTaskSave db data collab).findTask db.nextTaskId =
      some (newTask db data collab)) ∧
    (dbAfterTaskSave db data collab).resultsFor db.nextTaskId = [] ∧
    (TaskResource.get (dbAfterTaskSave db data collab) (some db.nextTaskId)
        true).isNotFound = false ∧
    ((dbAfterResultsSave db data collab).resultsFor db.nextTaskId).length =
      collab.nodes.length ∧
    (TaskResource.post db data).db = dbAfterResultsSave db data collab := by
  have hshape := post_success_shape db data cid collab hv ht hc
  have hfind : (dbAfterTaskSave db data collab).findTask db.nextTaskId =
      some (newTask db data collab) := by
    rw [DB.findTask] at hfreshT ⊢
    simp [dbAfterTaskSave, List.find?_append, hfreshT, newTask]
  refine ⟨by rw [hshape], hfind, ?_, ?_, ?_, by rw [hshape]⟩
  · rw [DB.resultsFor] at hfreshR ⊢
    simpa [dbAfterTaskSave] using hfreshR
  · have hf2 := hfind
    rw [DB.findTask] at hf2
    simp [TaskResource.get, DB.taskGet, hf2, TaskGetResp.isNotFound]
  · rw [resultsFor_afterSave db data collab hfreshR, mkResults_length]

/-- Witness for C1 (amended), at the concrete creation of `dbOne`. -/
theorem createTask_commit_sequence_witness :
    (TaskResource.post dbOne payloadOne).commits =
      [dbAfterTaskSave dbOne payloadOne ⟨1, "c", [⟨1, "n1"⟩]⟩,
       dbAfterResultsSave dbOne payloadOne ⟨1, "c", [⟨1, "n1"⟩]⟩] ∧
    ((dbAfterResultsSave dbOne payloadOne ⟨1, "c", [⟨1, "n1"⟩]⟩).resultsFor 1).length =
      1 :=
  ⟨(createTask_commit_sequence dbOne payloadOne (.int 1) ⟨1, "c", [⟨1, "n1"⟩]⟩
      rfl rfl rfl rfl rfl).1,
   (createTask_commit_sequence dbOne payloadOne (.int 1) ⟨1, "c", [⟨1, "n1"⟩]⟩
      rfl rfl rfl rfl rfl).2.2.2.2.1⟩

/-! ## C3 -/

/-- External membership management (outside the module under study): replace
one collaboration's node set, leaving tasks and results untouched. -/
def setCollaborationNodes (db : DB) (cid : Nat) (ns : List Node) : DB :=
  { db with collaborations :=
      db.collaborations.map (fun c => if c.id == cid then { c with nodes := ns } else c) }

/-- C3: a successful creation stores exactly one TaskResult per node of the
collaboration's node set as snapshotted at creation time: the result count
equals the snapshot's node count, the targeted node ids are exactly the
snapshot in order, the store keeps at most one TaskResult per
(task_id, node_id) pair (given that held before and the snapshot has no
duplicate node ids), and a later membership change leaves the task's result
set untouched. -/
theorem createTask_fanout_invariant (db : DB) (data : List (String × JValue))
    (cid : JValue) (collab : Collaboration)
    (hv : data.lookup "collaboration_id" = some cid)
    (ht : pyTruthy cid = true) (hc : db.collaborationGet cid = some collab)
    (hfreshR : db.resultsFor db.nextTaskId = [])
    (hnodes : (collab.nodes.map Node.id).Nodup)
    (hpairs : (db.results.map (fun r => (r.task_id, r.node_id))).Nodup) :
    ((TaskResource.post db data).db.resultsFor db.nextTaskId).length =
      collab.nodes.length ∧
    ((TaskResource.post db data).db.resultsFor db.nextTaskId).map
      TaskResult.node_id = collab.nodes.map Node.id ∧
    ((TaskResource.post db data).db.results.map
      (fun r => (r.task_id, r.node_id))).Nodup ∧
    (∀ cid2 ns,
      (setCollaborationNodes (TaskResource.post db data).db cid2 ns).resultsFor
        db.nextTaskId = (TaskResource.post db data).db.resultsFor db.nextTaskId) := by
  have hshape := post_success_shape db data cid collab hv ht hc
  have hrf : (TaskResource.post db data).db.resultsFor db.nextTaskId =
      mkResults db.nextResultId db.nextTaskId collab.nodes := by
    rw [hshape]
    exact resultsFor_afterSave db data collab hfreshR
  refine ⟨by rw [hrf, mkResults_length], by rw [hrf, mkResults_map_node], ?_,
          fun cid2 ns => rfl⟩
  rw [hshape]
  show ((db.results ++ mkResults db.nextResultId db.nextTaskId collab.nodes).map
      (fun r => (r.task_id, r.node_id))).Nodup
  rw [List.map_append]
  refine List.Nodup.append hpairs ?_ ?_
  · rw [mkResults_map_pair]
    have hinj : Function.Injective (fun i : Nat => (db.nextTaskId, i)) := by
      intro a b hab
      simpa using hab
    have h2 := hnodes.map hinj
    simpa [List.map_map] using h2
  · rw [mkResults_map_pair]
    intro p hp1 hp2
    obtain ⟨r, hr, rfl⟩ := List.mem_map.mp hp1
    obtain ⟨n, hn, heq⟩ := List.mem_map.mp hp2
    have hne : r.task_id ≠ db.nextTaskId := by
      rw [DB.resultsFor] at hfreshR
      have hall := List.filter_eq_nil_iff.mp hfreshR r hr
      simpa using hall
    exact hne (congrArg Prod.fst heq).symm

/-- Witness for C3 at the concrete creation of `dbOne`: one result, for node
1, with globally distinct (task_id, node_id) pairs, unaffected by emptying
the collaboration afterwards. -/
theorem createTask_fanout_invariant_witness :
    ((TaskResource.post dbOne payloadOne).db.resultsFor 1).length = 1 ∧
    ((TaskResource.post dbOne payloadOne).db.resultsFor 1).map
      TaskResult.node_id = [1] ∧
    ((TaskResource.post dbOne payloadOne).db.results.map
      (fun r => (r.task_id, r.node_id))).Nodup ∧
    (setCollaborationNodes (TaskResource.post dbOne payloadOne).db 1 []).resultsFor 1 =
      (TaskResource.post dbOne payloadOne).db.resultsFor 1 := by
  have h := createTask_fanout_invariant dbOne payloadOne (.int 1) ⟨1, "c", [⟨1, "n1"⟩]⟩
      rfl rfl rfl rfl (by decide) (by decide)
  exact ⟨h.1, h.2.1, h.2.2.1, h.2.2.2 1 []⟩

/-! ## JSON parsing (model of `json.loads`)

A recursive-descent parser over the character list, with explicit fuel so
that every definition is structural and reduces inside the kernel.  It is
the inverse the round-trip property (C6) requires: parsing a serialized
value recovers the value. -/

/-- Parse the body of a JSON string (the opening quote already consumed),
unescaping `\"`, `\\` and `\uXXXX`. -/
def parseStr : List Char → Option (List Char × List Char)
  | [] => none
  | '"' :: rest => some ([], rest)
  | '\\' :: 'u' :: h1 :: h2 :: h3 :: h4 :: rest =>
    if isHexChar h1 && isHexChar h2 && isHexChar h3 && isHexChar h4 then
      (parseStr rest).map (fun p =>
        (Char.ofNat (((hexVal h1 * 16 + hexVal h2) * 16 + hexVal h3) * 16 + hexVal h4)
          :: p.1, p.2))
    else none
  | '\\' :: c :: rest =>
    if c = '"' || c = '\\' then (parseStr rest).map (fun p => (c :: p.1, p.2)) else none
  | c :: rest => (parseStr rest).map (fun p => (c :: p.1, p.2))

/-- Split a leading run of decimal digits off the input. -/
def parseDigits : List Char → List Char × List Char
  | [] => ([], [])
  | c :: cs =>
    if isDigitChar c then ((parseDigits cs).1.cons c, (parseDigits cs).2) else ([], c :: cs)

/-- Value of a big-endian run of decimal digit characters. -/
def digitsVal (ds : List Char) : Nat := ds.foldl (fun a c => a * 10 + charVal c) 0

/-- Parse a decimal natural number (at least one digit). -/
def parseNat (cs : List Char) : Option (Nat × List Char) :=
  match parseDigits cs with
  | ([], _) => none
  | (ds, rest) => some (digitsVal ds, rest)

mutual

/-- Parse one JSON value. -/
def parseVal : Nat → List Char → Option (JValue × List Char)
  | 0, _ => none
  | fuel + 1, cs =>
    match cs with
    | 'n' :: 'u' :: 'l' :: 'l' :: rest => some (.null, rest)
    | 't' :: 'r' :: 'u' :: 'e' :: rest => some (.bool true, rest)
    | 'f' :: 'a' :: 'l' :: 's' :: 'e' :: rest => some (.bool false, rest)
    | '"' :: rest => (parseStr rest).map (fun p => (.str p.1, p.2))
    | '[' :: rest => (parseItems fuel rest).map (fun p => (.arr p.1, p.2))
    | '{' :: rest => (parseFields fuel rest).map (fun p => (.obj p.1, p.2))
    | '-' :: rest => (parseNat rest).map (fun p => (.int (-(p.1 : Int)), p.2))
    | _ => (parseNat cs).map (fun p => (.int (p.1 : Int), p.2))

/-- Parse the items of an array (opening bracket already consumed). -/
def parseItems : Nat → List Char → Option (List JValue × List Char)
  | 0, _ => none
  | fuel + 1, cs =>
    match cs with
    | ']' :: rest => some ([], rest)
    | _ =>
      (parseVal fuel cs).bind (fun p =>
        (parseItemsTail fuel p.2).map (fun q => (p.1 :: q.1, q.2)))

/-- Parse the remaining items of an array after the first. -/
def parseItemsTail : Nat → List Char → Option (List JValue × List Char)
  | 0, _ => none
  | fuel + 1, cs =>
    match cs with
    | ']' :: rest => some ([], rest)
    | ',' :: rest =>
      (parseVal fuel rest).bind (fun p =>
        (parseItemsTail fuel p.2).map (fun q => (p.1 :: q.1, q.2)))
    | _ => none

/-- Parse the fields of an object (opening brace already consumed). -/
def parseFields : Nat → List Char → Option (List (String × JValue) × List Char)
  | 0, _ => none
  | fuel + 1, cs =>
    match cs with
    | '}' :: rest => some ([], rest)
    | _ =>
      (parseField fuel cs).bind (fun p =>
        (parseFieldsTail fuel p.2).map (fun q => (p.1 :: q.1, q.2)))

/-- Parse the remaining fields of an object after the first. -/
def parseFieldsTail : Nat → List Char → Option (List (String × JValue) × List Char)
  | 0, _ => none
  | fuel + 1, cs =>
    match cs with
    | '}' :: rest => some ([], rest)
    | ',' :: rest =>
      (parseField fuel rest).bind (fun p =>
        (parseFieldsTail fuel p.2).map (fun q => (p.1 :: q.1, q.2)))
    | _ => none

/-- Parse one `"key":value` field. -/
def parseField : Nat → List Char → Option ((String × JValue) × List Char)
  | 0, _ => none
  | fuel + 1, cs =>
    match cs with
    | '"' :: rest =>
      (parseStr rest).bind (fun p =>
        match p.2 with
        | ':' :: rest3 =>
          (parseVal fuel rest3).map (fun q => ((String.mk p.1, q.1), q.2))
        | _ => none)
    | _ => none

end

/-- `json.loads` (model): parse a complete JSON text, failing unless the
whole input is consumed.  The fuel `2·length + 1` dominates the recursion
depth of any value the serializer produces. -/
def loads (s : String) : Option JValue :=
  match parseVal (2 * s.data.length + 1) s.data with
  | some (v, []) => some v
  | _ => none

/-! ## Size measures for the fuel bound -/

mutual

/-- Parser fuel needed for one value. -/
def sizeV : JValue → Nat
  | .arr xs => 1 + sizeItems xs
  | .obj fs => 1 + sizeFields fs
  | _ => 1

/-- Parser fuel needed for an array item list. -/
def sizeItems : List JValue → Nat
  | [] => 1
  | v :: vs => 1 + sizeV v + sizeItems vs

/-- Parser fuel needed for an object field list. -/
def sizeFields : List (String × JValue) → Nat
  | [] => 1
  | (_, v) :: fs => 2 + sizeV v + sizeFields fs

end

/-- The serialized form of the items after the first of a nonempty array. -/
def printItemsTail : List JValue → List Char
  | [] => []
  | v :: vs => ',' :: printVal v ++ printItemsTail vs

/-- The serialized form of the fields after the first of a nonempty object. -/
def printFieldsTail : List (String × JValue) → List Char
  | [] => []
  | (k, v) :: fs =>
    ',' :: '"' :: escapeChars k.data ++ '"' :: ':' :: printVal v ++ printFieldsTail fs

/-- May a serialized value stop here?  True exactly when the remaining input
is empty or starts with a separator or closer — never with a digit, so the
number parser cannot overrun. -/
def sepOK : List Char → Bool
  | [] => true
  | c :: _ => c == ',' || c == ']' || c == '\x7d'

/-- Is the value a string (Python `isinstance(input_, str)`)? -/
def JValue.isStr : JValue → Bool
  | .str _ => true
  | _ => false

/-! ## Decimal round-trip -/

/-- The digit printer ignores surplus fuel. -/
theorem natToRev_extra (n : Nat) : ∀ f1 f2, n < f1 → n < f2 →
    natToRev f1 n = natToRev f2 n := by
  induction n using Nat.strong_induction_on with
  | _ n ih =>
    intro f1 f2 h1 h2
    match f1, f2 with
    | g1 + 1, g2 + 1 =>
      by_cases hz : n = 0
      · simp [natToRev, hz]
      · simp only [natToRev, hz, if_false]
        have hd : n / 10 < n := Nat.div_lt_self (Nat.pos_of_ne_zero hz) (by omega)
        rw [ih (n / 10) hd g1 g2 (by omega) (by omega)]

/-- Peeling one digit off the printer of a positive number. -/
theorem natToRev_decomp (n : Nat) (hn : n ≠ 0) :
    (natToRev (n + 1) n).reverse =
      (natToRev (n / 10 + 1) (n / 10)).reverse ++ [digitToChar (n % 10)] := by
  have h1 : natToRev (n + 1) n = digitToChar (n % 10) :: natToRev n (n / 10) := by
    simp [natToRev, hn]
  have hd : n / 10 < n := Nat.div_lt_self (Nat.pos_of_ne_zero hn) (by omega)
  rw [h1, natToRev_extra (n / 10) n (n / 10 + 1) (by omega) (by omega)]
  simp

/-- Digits print as digit characters. -/
theorem isDigitChar_digitToChar (d : Nat) (h : d < 10) :
    isDigitChar (digitToChar d) = true := by
  interval_cases d <;> decide

/-- Reading a digit character back gives the digit. -/
theorem charVal_digitToChar (d : Nat) (h : d < 10) :
    charVal (digitToChar d) = d := by
  interval_cases d <;> decide

/-- Every character the positive-number printer emits is a digit. -/
theorem natToRev_all_digits (n : Nat) :
    ∀ c ∈ (natToRev (n + 1) n).reverse, isDigitChar c = true := by
  induction n using Nat.strong_induction_on with
  | _ n ih =>
    intro c hc
    by_cases hz : n = 0
    · subst hz
      simp [natToRev] at hc
    · rw [natToRev_decomp n hz] at hc
      rcases List.mem_append.mp hc with h | h
      · exact ih (n / 10) (Nat.div_lt_self (Nat.pos_of_ne_zero hz) (by omega)) c h
      · have : c = digitToChar (n % 10) := by simpa using h
        rw [this]
        exact isDigitChar_digitToChar _ (Nat.mod_lt _ (by omega))

/-- Appending one digit multiplies the read-back value by ten. -/
theorem digitsVal_append_digit (ds : List Char) (c : Char) :
    digitsVal (ds ++ [c]) = digitsVal ds * 10 + charVal c := by
  simp [digitsVal, List.foldl_append]

/-- Reading the printed digits of `n` back yields `n`. -/
theorem digitsVal_natToRev (n : Nat) :
    digitsVal ((natToRev (n + 1) n).reverse) = n := by
  induction n using Nat.strong_induction_on with
  | _ n ih =>
    by_cases hz : n = 0
    · subst hz
      simp [natToRev, digitsVal]
    · rw [natToRev_decomp n hz, digitsVal_append_digit,
        ih (n / 10) (Nat.div_lt_self (Nat.pos_of_ne_zero hz) (by omega)),
        charVal_digitToChar _ (Nat.mod_lt _ (by omega))]
      omega

/-- Every character of a printed natural number is a digit. -/
theorem printNat_all_digits (n : Nat) : ∀ c ∈ printNat n, isDigitChar c = true := by
  intro c hc
  rw [printNat] at hc
  by_cases hz : n = 0
  · simp [hz] at hc
    rw [hc]
    decide
  · simp only [hz, if_false] at hc
    exact natToRev_all_digits n c hc

/-- Reading a printed natural number back yields it. -/
theorem digitsVal_printNat (n : Nat) : digitsVal (printNat n) = n := by
  rw [printNat]
  by_cases hz : n = 0
  · subst hz
    decide
  · simp only [hz, if_false]
    exact digitsVal_natToRev n

/-- A printed natural number is never empty. -/
theorem printNat_ne_nil (n : Nat) : printNat n ≠ [] := by
  rw [printNat]
  by_cases hz : n = 0
  · simp [hz]
  · simp only [hz, if_false]
    intro hcon
    have h1 : natToRev (n + 1) n = digitToChar (n % 10) :: natToRev n (n / 10) := by
      simp [natToRev, hz]
    rw [h1] at hcon
    simp at hcon

/-- A printed natural number starts with a digit. -/
theorem printNat_head (n : Nat) :
    ∃ d ds, printNat n = d :: ds ∧ isDigitChar d = true := by
  cases hp : printNat n with
  | nil => exact absurd hp (printNat_ne_nil n)
  | cons d ds =>
    refine ⟨d, ds, rfl, printNat_all_digits n d ?_⟩
    rw [hp]
    exact List.mem_cons_self d ds

/-- Does the input not start with a digit? -/
def notDigitHead : List Char → Bool
  | [] => true
  | c :: _ => !isDigitChar c

/-- A separator or closer is never a digit. -/
theorem sepOK_notDigitHead (rest : List Char) (h : sepOK rest = true) :
    notDigitHead rest = true := by
  cases rest with
  | nil => rfl
  | cons c cs =>
    simp only [sepOK, Bool.or_eq_true, beq_iff_eq] at h
    rcases h with (h | h) | h <;> subst h <;> rfl

/-- Splitting digits off a digit run followed by a non-digit returns exactly
the run. -/
theorem parseDigits_spec (ds : List Char) (rest : List Char)
    (hds : ∀ c ∈ ds, isDigitChar c = true) (hrest : notDigitHead rest = true) :
    parseDigits (ds ++ rest) = (ds, rest) := by
  induction ds with
  | nil =>
    cases rest with
    | nil => rfl
    | cons c cs =>
      have : isDigitChar c = false := by
        simpa [notDigitHead] using hrest
      simp [parseDigits, this]
  | cons d ds ih =>
    have hd : isDigitChar d = true := hds d (List.mem_cons_self d ds)
    have ih2 := ih (fun c hc => hds c (List.mem_cons_of_mem d hc))
    simp [parseDigits, hd, ih2]

/-- Parsing a printed natural number yields it and the untouched rest. -/
theorem parseNat_printNat (n : Nat) (rest : List Char)
    (hrest : notDigitHead rest = true) :
    parseNat (printNat n ++ rest) = some (n, rest) := by
  rw [parseNat, parseDigits_spec (printNat n) rest (printNat_all_digits n) hrest]
  obtain ⟨d, ds, hp, _⟩ := printNat_head n
  rw [hp]
  simp only []
  rw [← hp, digitsVal_printNat]

/-! ## String-escape round-trip -/

/-- Hex digits print as hex characters. -/
theorem isHexChar_hexDigitChar (d : Nat) (h : d < 16) :
    isHexChar (hexDigitChar d) = true := by
  interval_cases d <;> decide

/-- Reading a hex digit character back gives its value. -/
theorem hexVal_hexDigitChar (d : Nat) (h : d < 16) :
    hexVal (hexDigitChar d) = d := by
  interval_cases d <;> decide

/-- An unescaped ordinary character is taken verbatim by the string parser. -/
theorem parseStr_raw (c : Char) (cs2 : List Char) (h1 : ¬c = '"') (h2 : ¬c = '\\') :
    parseStr (c :: cs2) = (parseStr cs2).map (fun p => (c :: p.1, p.2)) := by
  rw [parseStr.eq_def]
  split
  · rename_i heq
    exact absurd heq (by simp)
  · rename_i heq
    injection heq with hh _
    exact absurd hh h1
  · rename_i heq
    injection heq with hh _
    exact absurd hh h2
  · rename_i heq
    injection heq with hh _
    exact absurd hh h2
  · rename_i heq
    injection heq with hh hr
    subst hh
    subst hr
    rfl

/-- Unescaping an escaped string body recovers it, leaving untouched
whatever follows the closing quote. -/
theorem parseStr_escape (s : List Char) (rest : List Char) :
    parseStr (escapeChars s ++ '"' :: rest) = some (s, rest) := by
  induction s with
  | nil => rfl
  | cons c cs ih =>
    show parseStr ((escChar c ++ escapeChars cs) ++ '"' :: rest) = _
    rw [List.append_assoc]
    rw [escChar]
    by_cases h1 : c = '"'
    · subst h1
      simp only [if_true]
      show parseStr ('\\' :: '"' :: (escapeChars cs ++ '"' :: rest)) = _
      rw [show parseStr ('\\' :: '"' :: (escapeChars cs ++ '"' :: rest)) =
          (parseStr (escapeChars cs ++ '"' :: rest)).map
            (fun p => ('"' :: p.1, p.2)) from rfl]
      rw [ih]
      rfl
    · rw [if_neg h1]
      by_cases h2 : c = '\\'
      · subst h2
        simp only [if_true]
        show parseStr ('\\' :: '\\' :: (escapeChars cs ++ '"' :: rest)) = _
        rw [show parseStr ('\\' :: '\\' :: (escapeChars cs ++ '"' :: rest)) =
            (parseStr (escapeChars cs ++ '"' :: rest)).map
              (fun p => ('\\' :: p.1, p.2)) from rfl]
        rw [ih]
        rfl
      · rw [if_neg h2]
        by_cases h3 : c.toNat < 32
        · rw [if_pos h3]
          show parseStr ('\\' :: 'u' :: '0' :: '0' :: hexDigitChar (c.toNat / 16)
              :: hexDigitChar (c.toNat % 16) :: (escapeChars cs ++ '"' :: rest)) = _
          rw [parseStr]
          have hh1 : isHexChar (hexDigitChar (c.toNat / 16)) = true :=
            isHexChar_hexDigitChar _ (by omega)
          have hh2 : isHexChar (hexDigitChar (c.toNat % 16)) = true :=
            isHexChar_hexDigitChar _ (Nat.mod_lt _ (by omega))
          have h0 : isHexChar '0' = true := by decide
          rw [if_pos (by simp [hh1, hh2, h0])]
          rw [ih]
          show some (Char.ofNat (((hexVal '0' * 16 + hexVal '0') * 16 +
              hexVal (hexDigitChar (c.toNat / 16))) * 16 +
              hexVal (hexDigitChar (c.toNat % 16))) :: cs, rest) = _
          have hv : ((hexVal '0' * 16 + hexVal '0') * 16 +
              hexVal (hexDigitChar (c.toNat / 16))) * 16 +
              hexVal (hexDigitChar (c.toNat % 16)) = c.toNat := by
            rw [hexVal_hexDigitChar _ (by omega : c.toNat / 16 < 16),
              hexVal_hexDigitChar _ (Nat.mod_lt _ (by omega))]
            have h00 : hexVal '0' = 0 := by decide
            rw [h00]
            omega
          rw [hv, Char.ofNat_toNat]
        · rw [if_neg h3]
          show parseStr (c :: (escapeChars cs ++ '"' :: rest)) = _
          rw [parseStr_raw c _ h1 h2, ih]
          rfl

/-! ## Support lemmas for the value round-trip -/

/-- Serialization of a nonempty array splits into head and tail parts. -/
theorem printItems_decomp : ∀ (vs : List JValue) (v : JValue),
    printItems (v :: vs) = printVal v ++ printItemsTail vs
  | [], v => by simp [printItems, printItemsTail]
  | w :: ws, v => by
    rw [show printItems (v :: w :: ws) =
        printVal v ++ ',' :: printItems (w :: ws) from rfl]
    rw [printItems_decomp ws w]
    simp [printItemsTail]

/-- Serialization of a nonempty object splits into head and tail parts. -/
theorem printFields_decomp : ∀ (fs : List (String × JValue)) (k : String) (v : JValue),
    printFields ((k, v) :: fs) =
      '"' :: escapeChars k.data ++ '"' :: ':' :: printVal v ++ printFieldsTail fs
  | [], k, v => by simp [printFields, printFieldsTail]
  | (k2, v2) :: fs, k, v => by
    rw [show printFields ((k, v) :: (k2, v2) :: fs) =
        '"' :: escapeChars k.data ++ '"' :: ':' :: printVal v ++
          ',' :: printFields ((k2, v2) :: fs) from rfl]
    rw [printFields_decomp fs k2 v2]
    simp [printFieldsTail]

/-- After an array item the input continues with a separator or closer. -/
theorem sepOK_itemsTail (vs : List JValue) (rest : List Char) :
    sepOK (printItemsTail vs ++ ']' :: rest) = true := by
  cases vs <;> rfl

/-- After an object field the input continues with a separator or closer. -/
theorem sepOK_fieldsTail (fs : List (String × JValue)) (rest : List Char) :
    sepOK (printFieldsTail fs ++ '\x7d' :: rest) = true := by
  cases fs with
  | nil => rfl
  | cons kv fs => obtain ⟨k, v⟩ := kv; rfl

/-- Every value needs at least one unit of fuel. -/
theorem sizeV_pos (v : JValue) : 1 ≤ sizeV v := by
  cases v <;> simp [sizeV]

/-- Every item list needs at least one unit of fuel. -/
theorem sizeItems_pos (xs : List JValue) : 1 ≤ sizeItems xs := by
  cases xs with
  | nil => simp [sizeItems]
  | cons v vs => simp [sizeItems]; omega

/-- Every field list needs at least one unit of fuel. -/
theorem sizeFields_pos (fs : List (String × JValue)) : 1 ≤ sizeFields fs := by
  cases fs with
  | nil => simp [sizeFields]
  | cons kv fs => obtain ⟨k, v⟩ := kv; simp [sizeFields]; omega

/-- A digit character is one of the ten concrete digits. -/
theorem digit_enum (d : Char) (hd : isDigitChar d = true) :
    d = '0' ∨ d = '1' ∨ d = '2' ∨ d = '3' ∨ d = '4' ∨ d = '5' ∨ d = '6' ∨
    d = '7' ∨ d = '8' ∨ d = '9' := by
  have hb : 48 ≤ d.toNat ∧ d.toNat ≤ 57 := by
    simpa [isDigitChar, Bool.and_eq_true] using hd
  have hofn := Char.ofNat_toNat d
  have : d.toNat = 48 ∨ d.toNat = 49 ∨ d.toNat = 50 ∨ d.toNat = 51 ∨
      d.toNat = 52 ∨ d.toNat = 53 ∨ d.toNat = 54 ∨ d.toNat = 55 ∨
      d.toNat = 56 ∨ d.toNat = 57 := by omega
  rcases this with h | h | h | h | h | h | h | h | h | h <;>
    rw [h] at hofn <;> simp_all <;> rw [← hofn] <;> decide

/-! ## One-step unfolding of the parsers -/

/-- Fuel step: literal `null`. -/
theorem parseVal_null (fuel : Nat) (rest : List Char) :
    parseVal (fuel + 1) ('n' :: 'u' :: 'l' :: 'l' :: rest) = some (.null, rest) := rfl

/-- Fuel step: literal `true`. -/
theorem parseVal_true (fuel : Nat) (rest : List Char) :
    parseVal (fuel + 1) ('t' :: 'r' :: 'u' :: 'e' :: rest) = some (.bool true, rest) := rfl

/-- Fuel step: literal `false`. -/
theorem parseVal_false (fuel : Nat) (rest : List Char) :
    parseVal (fuel + 1) ('f' :: 'a' :: 'l' :: 's' :: 'e' :: rest) =
      some (.bool false, rest) := rfl

/-- Fuel step: a string. -/
theorem parseVal_quote (fuel : Nat) (X : List Char) :
    parseVal (fuel + 1) ('"' :: X) =
      (parseStr X).map (fun p => (JValue.str p.1, p.2)) := rfl

/-- Fuel step: an array. -/
theorem parseVal_lbracket (fuel : Nat) (X : List Char) :
    parseVal (fuel + 1) ('[' :: X) =
      (parseItems fuel X).map (fun p => (JValue.arr p.1, p.2)) := rfl

/-- Fuel step: an object. -/
theorem parseVal_lbrace (fuel : Nat) (X : List Char) :
    parseVal (fuel + 1) ('\x7b' :: X) =
      (parseFields fuel X).map (fun p => (JValue.obj p.1, p.2)) := rfl

/-- Fuel step: a negative number. -/
theorem parseVal_minus (fuel : Nat) (X : List Char) :
    parseVal (fuel + 1) ('-' :: X) =
      (parseNat X).map (fun p => (JValue.int (-(p.1 : Int)), p.2)) := rfl

/-- Fuel step: a nonnegative number (input starting with a digit). -/
theorem parseVal_digit (fuel : Nat) (d : Char) (ds : List Char)
    (hd : isDigitChar d = true) :
    parseVal (fuel + 1) (d :: ds) =
      (parseNat (d :: ds)).map (fun p => (JValue.int (p.1 : Int), p.2)) := by
  rcases digit_enum d hd with rfl | rfl | rfl | rfl | rfl | rfl | rfl | rfl | rfl | rfl <;>
    rfl

/-- Fuel step: the empty array. -/
theorem parseItems_rb (fuel : Nat) (rest : List Char) :
    parseItems (fuel + 1) (']' :: rest) = some ([], rest) := rfl

/-- Fuel step: a nonempty array (the head character of a serialized value is
never the closer). -/
theorem parseItems_cons (fuel : Nat) (c : Char) (X : List Char)
    (hc : c = 'n' ∨ c = 't' ∨ c = 'f' ∨ c = '"' ∨ c = '[' ∨ c = '\x7b' ∨ c = '-' ∨
      isDigitChar c = true) :
    parseItems (fuel + 1) (c :: X) =
      (parseVal fuel (c :: X)).bind (fun p =>
        (parseItemsTail fuel p.2).map (fun q => (p.1 :: q.1, q.2))) := by
  rcases hc with rfl | rfl | rfl | rfl | rfl | rfl | rfl | hd
  · rfl
  · rfl
  · rfl
  · rfl
  · rfl
  · rfl
  · rfl
  · rcases digit_enum c hd with rfl | rfl | rfl | rfl | rfl | rfl | rfl | rfl | rfl | rfl <;>
      rfl

/-- Fuel step: end of an array. -/
theorem parseItemsTail_rb (fuel : Nat) (rest : List Char) :
    parseItemsTail (fuel + 1) (']' :: rest) = some ([], rest) := rfl

/-- Fuel step: one more array item. -/
theorem parseItemsTail_comma (fuel : Nat) (X : List Char) :
    parseItemsTail (fuel + 1) (',' :: X) =
      (parseVal fuel X).bind (fun p =>
        (parseItemsTail fuel p.2).map (fun q => (p.1 :: q.1, q.2))) := rfl

/-- Fuel step: the empty object. -/
theorem parseFields_rb (fuel : Nat) (rest : List Char) :
    parseFields (fuel + 1) ('\x7d' :: rest) = some ([], rest) := rfl

/-- Fuel step: a nonempty object (a field starts with a quote). -/
theorem parseFields_quote (fuel : Nat) (X : List Char) :
    parseFields (fuel + 1) ('"' :: X) =
      (parseField fuel ('"' :: X)).bind (fun p =>
        (parseFieldsTail fuel p.2).map (fun q => (p.1 :: q.1, q.2))) := rfl

/-- Fuel step: end of an object. -/
theorem parseFieldsTail_rb (fuel : Nat) (rest : List Char) :
    parseFieldsTail (fuel + 1) ('\x7d' :: rest) = some ([], rest) := rfl

/-- Fuel step: one more object field. -/
theorem parseFieldsTail_comma (fuel : Nat) (X : List Char) :
    parseFieldsTail (fuel + 1) (',' :: X) =
      (parseField fuel X).bind (fun p =>
        (parseFieldsTail fuel p.2).map (fun q => (p.1 :: q.1, q.2))) := rfl

/-- Fuel step: one field. -/
theorem parseField_quote (fuel : Nat) (X : List Char) :
    parseField (fuel + 1) ('"' :: X) =
      (parseStr X).bind (fun p =>
        match p.2 with
        | ':' :: rest3 =>
          (parseVal fuel rest3).map (fun q => ((String.mk p.1, q.1), q.2))
        | _ => none) := rfl

/-- The head of a serialized value, enumerated. -/
theorem printVal_head_enum (v : JValue) :
    ∃ c t, printVal v = c :: t ∧
      (c = 'n' ∨ c = 't' ∨ c = 'f' ∨ c = '"' ∨ c = '[' ∨ c = '\x7b' ∨ c = '-' ∨
       isDigitChar c = true) := by
  cases v with
  | null => exact ⟨'n', _, rfl, by tauto⟩
  | bool b =>
    cases b with
    | false => exact ⟨'f', _, rfl, by tauto⟩
    | true => exact ⟨'t', _, rfl, by tauto⟩
  | int i =>
    rcases i with n | m
    · obtain ⟨d, ds, hp, hd⟩ := printNat_head n
      refine ⟨d, ds, ?_, by tauto⟩
      show printInt (Int.ofNat n) = d :: ds
      rw [printInt,
        if_neg (show ¬Int.ofNat n < 0 from Int.not_lt.mpr (Int.ofNat_zero_le n))]
      exact hp
    · refine ⟨'-', printNat (Int.negSucc m).natAbs, ?_, by tauto⟩
      show printInt (Int.negSucc m) = _
      rw [printInt, if_pos (Int.negSucc_lt_zero m)]
  | str s => exact ⟨'"', _, rfl, by tauto⟩
  | arr xs => exact ⟨'[', _, rfl, by tauto⟩
  | obj fs => exact ⟨'\x7b', _, rfl, by tauto⟩

/-! ## The serializer/parser round-trip -/

/-- Round-trip of the serializer and the parser, jointly for values, array
item lists and object field lists, by strong induction on the fuel. -/
theorem parse_print (fuel : Nat) :
    (∀ v rest, sizeV v ≤ fuel → sepOK rest = true →
      parseVal fuel (printVal v ++ rest) = some (v, rest)) ∧
    (∀ xs rest, sizeItems xs ≤ fuel →
      parseItems fuel (printItems xs ++ ']' :: rest) = some (xs, rest)) ∧
    (∀ xs rest, sizeItems xs ≤ fuel →
      parseItemsTail fuel (printItemsTail xs ++ ']' :: rest) = some (xs, rest)) ∧
    (∀ fs rest, sizeFields fs ≤ fuel →
      parseFields fuel (printFields fs ++ '\x7d' :: rest) = some (fs, rest)) ∧
    (∀ fs rest, sizeFields fs ≤ fuel →
      parseFieldsTail fuel (printFieldsTail fs ++ '\x7d' :: rest) = some (fs, rest)) ∧
    (∀ k v rest, sizeV v + 1 ≤ fuel → sepOK rest = true →
      parseField fuel
        ('"' :: (escapeChars k.data ++ ('"' :: (':' :: (printVal v ++ rest))))) =
        some ((k, v), rest)) := by
  induction fuel using Nat.strong_induction_on with
  | _ fuel ih =>
    match fuel with
    | 0 =>
      refine ⟨?_, ?_, ?_, ?_, ?_, ?_⟩
      · intro v rest hs _
        exact absurd hs (by have := sizeV_pos v; omega)
      · intro xs rest hs
        exact absurd hs (by have := sizeItems_pos xs; omega)
      · intro xs rest hs
        exact absurd hs (by have := sizeItems_pos xs; omega)
      · intro fs rest hs
        exact absurd hs (by have := sizeFields_pos fs; omega)
      · intro fs rest hs
        exact absurd hs (by have := sizeFields_pos fs; omega)
      · intro k v rest hs _
        exact absurd hs (by omega)
    | f + 1 =>
      obtain ⟨ihv, ihi, ihit, ihf, ihft, ihfd⟩ := ih f (Nat.lt_succ_self f)
      refine ⟨?_, ?_, ?_, ?_, ?_, ?_⟩
      · intro v rest hs hsep
        cases v with
        | null =>
          rw [show printVal .null ++ rest = 'n' :: 'u' :: 'l' :: 'l' :: rest from rfl]
          exact parseVal_null f rest
        | bool b =>
          cases b with
          | true =>
            rw [show printVal (.bool true) ++ rest =
              't' :: 'r' :: 'u' :: 'e' :: rest from rfl]
            exact parseVal_true f rest
          | false =>
            rw [show printVal (.bool false) ++ rest =
              'f' :: 'a' :: 'l' :: 's' :: 'e' :: rest from rfl]
            exact parseVal_false f rest
        | int i =>
          rcases i with n | m
          · obtain ⟨d, ds, hp, hd⟩ := printNat_head n
            have hpv : printVal (.int (Int.ofNat n)) = printNat n := by
              show printInt (Int.ofNat n) = _
              rw [printInt, if_neg
                (show ¬Int.ofNat n < 0 from Int.not_lt.mpr (Int.ofNat_zero_le n))]
              rfl
            rw [hpv, hp, List.cons_append, parseVal_digit f d (ds ++ rest) hd,
              ← List.cons_append, ← hp,
              parseNat_printNat n rest (sepOK_notDigitHead rest hsep)]
            rfl
          · have hpv : printVal (.int (Int.negSucc m)) = '-' :: printNat (m + 1) := by
              show printInt (Int.negSucc m) = _
              rw [printInt, if_pos (Int.negSucc_lt_zero m)]
              rfl
            rw [hpv, List.cons_append, parseVal_minus,
              parseNat_printNat (m + 1) rest (sepOK_notDigitHead rest hsep)]
            show some (JValue.int (-((m + 1 : Nat) : Int)), rest) =
              some (JValue.int (Int.negSucc m), rest)
            rw [Int.negSucc_eq]
            norm_num
        | str s =>
          rw [show printVal (.str s) ++ rest =
            '"' :: (escapeChars s ++ '"' :: rest) by simp [printVal]]
          rw [parseVal_quote, parseStr_escape]
          rfl
        | arr xs =>
          rw [show printVal (.arr xs) ++ rest =
            '[' :: (printItems xs ++ ']' :: rest) by simp [printVal]]
          rw [parseVal_lbracket, ihi xs rest (by simp [sizeV] at hs; omega)]
          rfl
        | obj fs =>
          rw [show printVal (.obj fs) ++ rest =
            '\x7b' :: (printFields fs ++ '\x7d' :: rest) by simp [printVal]]
          rw [parseVal_lbrace, ihf fs rest (by simp [sizeV] at hs; omega)]
          rfl
      · intro xs rest hs
        cases xs with
        | nil =>
          rw [show printItems [] ++ ']' :: rest = ']' :: rest from rfl]
          exact parseItems_rb f rest
        | cons v vs =>
          obtain ⟨c, t, hpv, hhead⟩ := printVal_head_enum v
          have hsz : sizeV v ≤ f ∧ sizeItems vs ≤ f := by
            simp only [sizeItems] at hs
            have h1 := sizeV_pos v
            have h2 := sizeItems_pos vs
            omega
          rw [printItems_decomp vs v, List.append_assoc, hpv, List.cons_append,
            parseItems_cons f c (t ++ (printItemsTail vs ++ ']' :: rest)) hhead,
            ← List.cons_append, ← hpv,
            ihv v (printItemsTail vs ++ ']' :: rest) hsz.1 (sepOK_itemsTail vs rest)]
          simp only [Option.some_bind]
          rw [ihit vs rest hsz.2]
          rfl
      · intro xs rest hs
        cases xs with
        | nil => exact parseItemsTail_rb f rest
        | cons w ws =>
          have hsz : sizeV w ≤ f ∧ sizeItems ws ≤ f := by
            simp only [sizeItems] at hs
            have h1 := sizeV_pos w
            have h2 := sizeItems_pos ws
            omega
          rw [show printItemsTail (w :: ws) ++ ']' :: rest =
              ',' :: (printVal w ++ (printItemsTail ws ++ ']' :: rest)) by
            simp [printItemsTail]]
          rw [parseItemsTail_comma,
            ihv w (printItemsTail ws ++ ']' :: rest) hsz.1 (sepOK_itemsTail ws rest)]
          simp only [Option.some_bind]
          rw [ihit ws rest hsz.2]
          rfl
      · intro fs rest hs
        cases fs with
        | nil => exact parseFields_rb f rest
        | cons kv fs2 =>
          obtain ⟨k, v⟩ := kv
          have hsz : sizeV v + 1 ≤ f ∧ sizeFields fs2 ≤ f := by
            simp only [sizeFields] at hs
            have h2 := sizeFields_pos fs2
            omega
          rw [printFields_decomp fs2 k v]
          simp only [List.cons_append, List.append_assoc]
          rw [parseFields_quote,
            ihfd k v (printFieldsTail fs2 ++ '\x7d' :: rest) hsz.1
              (sepOK_fieldsTail fs2 rest)]
          simp only [Option.some_bind]
          rw [ihft fs2 rest hsz.2]
          rfl
      · intro fs rest hs
        cases fs with
        | nil => exact parseFieldsTail_rb f rest
        | cons kv fs2 =>
          obtain ⟨k, v⟩ := kv
          have hsz : sizeV v + 1 ≤ f ∧ sizeFields fs2 ≤ f := by
            simp only [sizeFields] at hs
            have h2 := sizeFields_pos fs2
            omega
          rw [show printFieldsTail ((k, v) :: fs2) ++ '\x7d' :: rest =
            ',' :: ('"' :: (escapeChars k.data ++ ('"' :: (':' :: (printVal v ++
              (printFieldsTail fs2 ++ '\x7d' :: rest)))))) by
            simp [printFieldsTail]]
          rw [parseFieldsTail_comma,
            ihfd k v (printFieldsTail fs2 ++ '\x7d' :: rest) hsz.1
              (sepOK_fieldsTail fs2 rest)]
          simp only [Option.some_bind]
          rw [ihft fs2 rest hsz.2]
          rfl
      · intro k v rest hs hsep
        rw [parseField_quote,
          parseStr_escape k.data (':' :: (printVal v ++ rest))]
        simp only [Option.some_bind]
        rw [ihv v rest (by omega) hsep]
        simp only [Option.map_some']

/-- A printed integer is never empty. -/
theorem printInt_len_pos (i : Int) : 1 ≤ (printInt i).length := by
  rw [printInt]
  by_cases h : i < 0
  · simp [h]
  · simp only [h, if_false]
    exact List.length_pos.mpr (printNat_ne_nil i.natAbs)

mutual

/-- The fuel a value needs is dominated by twice its printed length. -/
theorem size_le_val : ∀ v : JValue, sizeV v + 1 ≤ 2 * (printVal v).length
  | .null => by simp [sizeV, printVal]
  | .bool b => by cases b <;> simp [sizeV, printVal]
  | .int i => by
    have h := printInt_len_pos i
    show sizeV (.int i) + 1 ≤ 2 * (printInt i).length
    simp only [sizeV]
    omega
  | .str s => by
    show sizeV (.str s) + 1 ≤ 2 * ('"' :: escapeChars s ++ ['"']).length
    simp [sizeV]
  | .arr xs => by
    have h := size_le_items xs
    show sizeV (.arr xs) + 1 ≤ 2 * ('[' :: printItems xs ++ [']']).length
    simp only [sizeV, List.length_cons, List.length_append, List.length_singleton]
    omega
  | .obj fs => by
    have h := size_le_fields fs
    show sizeV (.obj fs) + 1 ≤ 2 * ('\x7b' :: printFields fs ++ ['\x7d']).length
    simp only [sizeV, List.length_cons, List.length_append, List.length_singleton]
    omega

/-- The fuel an item list needs is dominated by twice its printed length. -/
theorem size_le_items : ∀ xs : List JValue,
    sizeItems xs ≤ 2 * (printItems xs).length + 2
  | [] => by simp [sizeItems, printItems]
  | v :: vs => by
    have h1 := size_le_val v
    have h2 := size_le_itemsTail vs
    rw [printItems_decomp vs v]
    simp only [sizeItems, List.length_append]
    omega

/-- The fuel an item tail needs is dominated by twice its printed length. -/
theorem size_le_itemsTail : ∀ vs : List JValue,
    sizeItems vs ≤ 2 * (printItemsTail vs).length + 2
  | [] => by simp [sizeItems, printItemsTail]
  | w :: ws => by
    have h1 := size_le_val w
    have h2 := size_le_itemsTail ws
    simp only [sizeItems, printItemsTail, List.length_cons, List.length_append]
    omega

/-- The fuel a field list needs is dominated by twice its printed length. -/
theorem size_le_fields : ∀ fs : List (String × JValue),
    sizeFields fs ≤ 2 * (printFields fs).length + 2
  | [] => by simp [sizeFields, printFields]
  | (k, v) :: fs => by
    have h1 := size_le_val v
    have h2 := size_le_fieldsTail fs
    rw [printFields_decomp fs k v]
    simp only [sizeFields, List.length_cons, List.length_append]
    omega

/-- The fuel a field tail needs is dominated by twice its printed length. -/
theorem size_le_fieldsTail : ∀ fs : List (String × JValue),
    sizeFields fs ≤ 2 * (printFieldsTail fs).length + 2
  | [] => by simp [sizeFields, printFieldsTail]
  | (k, v) :: fs => by
    have h1 := size_le_val v
    have h2 := size_le_fieldsTail fs
    simp only [sizeFields, printFieldsTail, List.length_cons, List.length_append]
    omega

end

/-- `json.loads` inverts `json.dumps`. -/
theorem loads_dumps (v : JValue) : loads (dumps v) = some v := by
  have hfuel : sizeV v ≤ 2 * (printVal v).length + 1 := by
    have := size_le_val v
    omega
  have hmain := (parse_print (2 * (printVal v).length + 1)).1 v [] hfuel rfl
  rw [List.append_nil] at hmain
  show (match parseVal (2 * (printVal v).length + 1) (printVal v) with
    | some (w, []) => some w
    | _ => none) = some v
  rw [hmain]

/-! ## C6 -/

/-- C6: on every valid creation, `input` is normalized before storage
(lines 87-91): a string payload value is stored verbatim, and a structured
(non-string) value is stored as its canonical JSON text, which parses back
to a value equal to the original. -/
theorem createTask_input_roundtrip (db : DB) (data : List (String × JValue))
    (cid : JValue) (collab : Collaboration)
    (hv : data.lookup "collaboration_id" = some cid)
    (ht : pyTruthy cid = true) (hc : db.collaborationGet cid = some collab) :
    (TaskResource.post db data).resp = .created (newTask db data collab) ∧
    (newTask db data collab).input = storedInput (jGetD data "input" (.str [])) ∧
    (∀ s, jGetD data "input" (.str []) = .str s →
      (newTask db data collab).input = String.mk s) ∧
    ((jGetD data "input" (.str [])).isStr = false →
      (newTask db data collab).input = dumps (jGetD data "input" (.str [])) ∧
      loads ((newTask db data collab).input) =
        some (jGetD data "input" (.str []))) := by
  refine ⟨?_, rfl, ?_, ?_⟩
  · rw [post_success_shape db data cid collab hv ht hc]
  · intro s hsv
    show storedInput (jGetD data "input" (.str [])) = String.mk s
    rw [hsv]
    rfl
  · intro hnstr
    constructor
    · show storedInput (jGetD data "input" (.str [])) =
        dumps (jGetD data "input" (.str []))
      cases hval : jGetD data "input" (.str []) with
      | str s =>
        rw [hval] at hnstr
        exact absurd hnstr (by simp [JValue.isStr])
      | null => rfl
      | bool b => rfl
      | int n => rfl
      | arr xs => rfl
      | obj fs => rfl
    · show loads (storedInput (jGetD data "input" (.str []))) =
        some (jGetD data "input" (.str []))
      cases hval : jGetD data "input" (.str []) with
      | str s =>
        rw [hval] at hnstr
        exact absurd hnstr (by simp [JValue.isStr])
      | null => exact loads_dumps .null
      | bool b => exact loads_dumps (.bool b)
      | int n => exact loads_dumps (.int n)
      | arr xs => exact loads_dumps (.arr xs)
      | obj fs => exact loads_dumps (.obj fs)

/-- Witness for C6: the structured input `\x7b"a": 1\x7d` is stored as the JSON
text `\x7b"a":1\x7d` and parses back to itself; the string input `"raw"` is stored
verbatim. -/
theorem createTask_input_roundtrip_witness :
    (newTask dbOne [("collaboration_id", .int 1), ("input", .obj [("a", .int 1)])]
      ⟨1, "c", [⟨1, "n1"⟩]⟩).input = "\x7b\"a\":1\x7d" ∧
    loads ((newTask dbOne
      [("collaboration_id", .int 1), ("input", .obj [("a", .int 1)])]
      ⟨1, "c", [⟨1, "n1"⟩]⟩).input) = some (.obj [("a", .int 1)]) ∧
    (newTask dbOne [("collaboration_id", .int 1), ("input", .str "raw".data)]
      ⟨1, "c", [⟨1, "n1"⟩]⟩).input = "raw" := by
  have h1 := (createTask_input_roundtrip dbOne
      [("collaboration_id", .int 1), ("input", .obj [("a", .int 1)])]
      (.int 1) ⟨1, "c", [⟨1, "n1"⟩]⟩ rfl rfl rfl).2.2.2 rfl
  have h2 := (createTask_input_roundtrip dbOne
      [("collaboration_id", .int 1), ("input", .str "raw".data)]
      (.int 1) ⟨1, "c", [⟨1, "n1"⟩]⟩ rfl rfl rfl).2.2.1 "raw".data rfl
  refine ⟨?_, h1.2, ?_⟩
  · rw [h1.1]
    rfl
  · rw [h2]

end PTM
